import Mathlib

/-!
# Verification of the gitflow-cli configuration / adapter layer

Shallow embedding of the TypeScript sources of `gitflow-cli`:

* `src/services/config.ts`  — `ConfigManager` (store, set/get, validateConfig)
* `src/commands/config.ts`  — `setConfig` (value coercion, validation after write)
* `src/services/git.ts`     — `GitService.status`, `GitService.getRemoteUrl`
* `src/commands/pr.ts` / `src/commands/issue.ts` — remote-URL owner/repo
  extraction and command preamble (precondition checks before any hosting call)
* `src/services/ai.ts`      — `AIService` (provider dispatch, response
  post-processing `parseResponse`)
* `src/commands/commit.ts` / `src/commands/ai.ts` / `src/commands/pr.ts` —
  the empty-diff gates in front of the generation adapter.

JavaScript strings that undergo structural processing are modelled as
`List Char`; plain identifiers (config keys, provider tags) stay `String`.
JavaScript `Number(...)` conversion is kept abstract as a parameter
`numConv : String → Option N` (`none` = NaN), since the claims only depend
on whether the conversion yields NaN.
-/

set_option autoImplicit false

namespace Gitflow

/-! ## JavaScript string primitives (on `List Char`) -/

/-- The whitespace characters relevant to JS `trim()` and the `\s` class. -/
def isJSWhitespace (c : Char) : Bool :=
  c == ' ' || c == '\t' || c == '\n' || c == '\r' || c == '\x0b' || c == '\x0c'

/-- Remove trailing whitespace (the right half of JS `String.prototype.trim`). -/
def dropTrailingWS : List Char → List Char
  | [] => []
  | c :: rest =>
    match dropTrailingWS rest with
    | [] => if isJSWhitespace c then [] else [c]
    | r => c :: r

/-- JS `String.prototype.trim()`. -/
def jsTrim (l : List Char) : List Char :=
  dropTrailingWS (l.dropWhile isJSWhitespace)

/-- JS `String.prototype.split('\n')`: always returns a non-empty list of
(possibly empty) lines. -/
def splitLines : List Char → List (List Char)
  | [] => [[]]
  | c :: rest =>
    if c = '\n' then [] :: splitLines rest
    else
      match splitLines rest with
      | [] => [[c]]
      | l :: ls => (c :: l) :: ls

/-- The first line of a string, the spec-side reading of `split('\n')[0]`. -/
def firstLineOf (l : List Char) : List Char :=
  l.takeWhile (fun c => c != '\n')

/-- JS truthiness of an optional string (`undefined` and `''` are falsy). -/
def jsTruthyStr (o : Option String) : Bool :=
  match o with
  | none => false
  | some s => s != ""

/-! ## Configuration store (src/services/config.ts, src/commands/config.ts)

The `conf` store holds JSON values; after the CLI's coercion a stored value
is a boolean, a number or a string.  The JS number type is kept abstract. -/

/-- A value as persisted by `ConfigManager` after `setConfig` coercion. -/
inductive ConfigValue (N : Type) where
  | bool (b : Bool)
  | num (n : N)
  | str (s : String)
  deriving DecidableEq

/-- The flat key-value store backing `ConfigManager`. -/
def ConfStore (N : Type) : Type := String → Option (ConfigValue N)

/-- The `defaults` passed to the `Conf` constructor:
`defaultBranch: 'main', aiProvider: 'openai', autoOpenPr: false`. -/
def confDefaults {N : Type} (k : String) : Option (ConfigValue N) :=
  if k = "defaultBranch" then some (ConfigValue.str "main")
  else if k = "aiProvider" then some (ConfigValue.str "openai")
  else if k = "autoOpenPr" then some (ConfigValue.bool false)
  else none

/-- `ConfigManager.set` — `this.config.set(key, value)`. -/
def ConfigManager.set {N : Type} (st : ConfStore N) (k : String) (v : ConfigValue N) :
    ConfStore N :=
  fun q => if q = k then some v else st q

/-- `ConfigManager.get` — `this.config.get(key)`; the `conf` package falls
back to the constructor defaults for an unset key. -/
def ConfigManager.get {N : Type} (st : ConfStore N) (k : String) : Option (ConfigValue N) :=
  match st k with
  | some v => some v
  | none => confDefaults k

/-- The value coercion performed by `setConfig` in src/commands/config.ts:
`'true'`/`'false'` become booleans, then
`!isNaN(Number(value)) && value !== ''` yields a number, else the string is
kept.  `numConv v = none` models `isNaN(Number(v))`. -/
def coerceValue {N : Type} (numConv : String → Option N) (value : String) : ConfigValue N :=
  if value = "true" then ConfigValue.bool true
  else if value = "false" then ConfigValue.bool false
  else
    match numConv value with
    | some n => if value = "" then ConfigValue.str value else ConfigValue.num n
    | none => ConfigValue.str value

/-- The typed view of the store (interface `GitFlowConfig` in src/types). -/
structure GitFlowConfig where
  githubToken : Option String := none
  defaultBranch : Option String := none
  aiProvider : Option String := none
  aiApiKey : Option String := none
  editor : Option String := none
  autoOpenPr : Option Bool := none
  deriving DecidableEq

/-- `ConfigManager.validateConfig` (src/services/config.ts, lines 48-64):
flags a truthy `githubToken` that starts with neither recognized token
format, and a truthy `aiProvider` outside the three recognized selectors.
Returns the `errors` list; `valid` is `errors.length === 0`. -/
def validateConfig (c : GitFlowConfig) : List String :=
  (if jsTruthyStr c.githubToken ∧
      ¬ ((c.githubToken.getD "").startsWith "ghp_" ∨
         (c.githubToken.getD "").startsWith "github_pat_")
   then ["GitHub token appears to be invalid"] else []) ++
  (if jsTruthyStr c.aiProvider ∧
      (c.aiProvider.getD "") ∉ (["openai", "anthropic", "local"] : List String)
   then ["AI provider must be one of: openai, anthropic, local"] else [])

/-- `setConfig` from src/commands/config.ts: coerce, persist, and only then
validate (validation output is printed as warnings; it never influences the
write).  `view` projects the raw store to the typed view that
`validateConfig` reads through `getConfig()`. -/
def setConfigCmd {N : Type} (numConv : String → Option N)
    (view : ConfStore N → GitFlowConfig) (st : ConfStore N) (k v : String) :
    ConfStore N × List String :=
  let st2 := ConfigManager.set st k (coerceValue numConv v)
  (st2, validateConfig (view st2))

/-! ## Version-control adapter (src/services/git.ts)

The `simple-git` engine's `status()` result is modelled as a record of the
fields the adapter reads.  `ahead`/`behind` are the engine's commit counts
(`number | null`), `current`/`tracking` may be absent. -/

/-- The engine-native status record consumed by `GitService.status`. -/
structure EngineStatus where
  current : Option String
  tracking : Option String
  modified : List String
  created : List String
  staged : List String
  conflicted : List String
  ahead : Option Nat
  behind : Option Nat
  deriving DecidableEq

/-- The normalized status returned by `GitService.status`. -/
structure WorkingTreeStatus where
  current : String
  tracking : Option String
  changed : List String
  staged : List String
  conflicts : List String
  ahead : Int
  behind : Int
  deriving DecidableEq

/-- JS `a || b` on an optional string (`undefined` and `''` are falsy). -/
def jsOrString (o : Option String) (d : String) : String :=
  match o with
  | none => d
  | some s => if s = "" then d else s

/-- JS `a || undefined` on an optional string. -/
def jsOrUndef (o : Option String) : Option String :=
  match o with
  | none => none
  | some s => if s = "" then none else some s

/-- JS `a || d` on an optional count (`null` and `0` are falsy). -/
def jsOrNat (o : Option Nat) (d : Nat) : Nat :=
  match o with
  | none => d
  | some n => if n = 0 then d else n

/-- `GitService.status` (src/services/git.ts, lines 42-62). -/
def GitService.status (s : EngineStatus) : WorkingTreeStatus :=
  { current := jsOrString s.current "HEAD"
  , tracking := jsOrUndef s.tracking
  , changed := s.modified
  , staged := s.created ++ s.staged
  , conflicts := s.conflicted
  , ahead := (jsOrNat s.ahead 0 : Nat)
  , behind := (jsOrNat s.behind 0 : Nat) }

/-- A remote's fetch/push URLs (`simple-git` `getRemotes(true)` entry). -/
structure RemoteRefs where
  fetch : String
  push : String
  deriving DecidableEq

/-- One configured remote as listed by the engine. -/
structure RemoteInfo where
  name : String
  refs : RemoteRefs
  deriving DecidableEq

/-- `GitService.getRemoteUrl` (src/services/git.ts, lines 165-173): the
engine call `getRemotes(true)` either fails (`.error`) or yields the remote
list; the method catches any failure and returns `undefined`, otherwise
`remotes.find(r => r.name === remote)?.refs.fetch`. -/
def GitService.getRemoteUrl (remotesResult : Except String (List RemoteInfo))
    (remote : String) : Option String :=
  match remotesResult with
  | Except.error _ => none
  | Except.ok remotes => (remotes.find? (fun r => r.name == remote)).map (fun r => r.refs.fetch)

/-! ## Remote-URL owner/repo extraction (src/commands/pr.ts, issue.ts)

Both commands run
`remoteUrl.match(/github\.com[\/:]([^\/]+)\/([^\/.]+)(\.git)?$/)`.
For this pattern the backtracking search is deterministic per starting
offset (both character classes exclude the character that must follow), so
the match is: at the leftmost occurrence of `github.com` followed by `/` or
`:`, a non-empty owner without `/`, a `/`, a non-empty repo without `/` or
`.`, and then either end of input or the literal `.git`. -/

def githubHost : List Char := "github.com".toList

/-- Attempt the pr/issue remote-URL pattern at the head of `l`. -/
def tryMatchAt (l : List Char) : Option (List Char × List Char) :=
  if githubHost.isPrefixOf l then
    match l.drop githubHost.length with
    | [] => none
    | sep :: rest =>
      if sep = '/' ∨ sep = ':' then
        let owner := rest.takeWhile (fun c => c != '/')
        let rest2 := rest.dropWhile (fun c => c != '/')
        if owner = [] then none
        else
          match rest2 with
          | [] => none
          | _ :: rest3 =>
            let repo := rest3.takeWhile (fun c => c != '/' && c != '.')
            let rest4 := rest3.dropWhile (fun c => c != '/' && c != '.')
            if repo = [] then none
            else if rest4 = [] ∨ rest4 = ".git".toList then some (owner, repo)
            else none
      else none
  else none

/-- The owner/repo extraction: leftmost position where the pattern matches. -/
def matchOwnerRepo : List Char → Option (List Char × List Char)
  | [] => none
  | c :: rest =>
    match tryMatchAt (c :: rest) with
    | some r => some r
    | none => matchOwnerRepo rest

/-- An authenticated hosting-API request issued by the pr/issue commands. -/
inductive HostCall where
  | getPullRequests (owner repo state : List Char)
  | createPullRequest (owner repo : List Char)
  | getIssues (owner repo state : List Char)
  | createIssue (owner repo : List Char)
  deriving DecidableEq

/-- Command termination: normal, or `process.exit(1)` after an error. -/
inductive CmdExit where
  | ok
  | exitError (msg : String)
  deriving DecidableEq

/-- The `pr` command preamble (src/commands/pr.ts, lines 357-405): repository
check, remote-URL check, owner/repo extraction — each failure exits with an
error before any hosting call.  The behaviour after a successful extraction
(list/create/merge/show, including their hosting calls) is the continuation
`cont`. -/
def prCommandModel (cont : List Char → List Char → List HostCall × CmdExit)
    (isRepo : Bool) (remoteUrl : Option (List Char)) : List HostCall × CmdExit :=
  if isRepo = false then ([], CmdExit.exitError "Not a git repository")
  else
    match remoteUrl with
    | none => ([], CmdExit.exitError "No remote repository configured")
    | some url =>
      match matchOwnerRepo url with
      | none => ([], CmdExit.exitError "Invalid GitHub repository URL")
      | some (owner, repo) => cont owner repo

/-- The `issue` command preamble (src/commands/issue.ts, lines 19-64): the
same precondition sequence as the `pr` command. -/
def issueCommandModel (cont : List Char → List Char → List HostCall × CmdExit)
    (isRepo : Bool) (remoteUrl : Option (List Char)) : List HostCall × CmdExit :=
  if isRepo = false then ([], CmdExit.exitError "Not a git repository")
  else
    match remoteUrl with
    | none => ([], CmdExit.exitError "No remote repository configured")
    | some url =>
      match matchOwnerRepo url with
      | none => ([], CmdExit.exitError "Invalid GitHub repository URL")
      | some (owner, repo) => cont owner repo

/-! ## Generation adapter (src/services/ai.ts)

The backend HTTP exchange is abstracted to its observable result: either an
HTTP-level failure message or the single text payload extracted from the
response (`choices[0]?.message?.content || ''` resp. `content[0]?.text || ''`).
The trace of network requests is returned alongside the result. -/

/-- The structured generation result (interface `AIResponse`). -/
structure AIResponse where
  content : List Char
  confidence : ℚ
  suggestions : Option (List (List Char)) := none
  deriving DecidableEq

/-- `line.trim().startsWith('-') || line.trim().startsWith('*')` applied to
an already-trimmed line. -/
def bulletStart (t : List Char) : Bool :=
  match t with
  | [] => false
  | c :: _ => c == '-' || c == '*'

/-- `line.replace(/^[-*]\s*/, '').trim()`: remove one leading bullet marker
and the whitespace run after it (only when the marker is the first
character), then trim. -/
def stripBulletLine (line : List Char) : List Char :=
  jsTrim
    (match line with
     | [] => []
     | c :: rest => if c == '-' || c == '*' then rest.dropWhile isJSWhitespace else c :: rest)

/-- A double or single quote character (for the `issue` intent's
`replace(/^["']|["']$/g, '')`). -/
def isQuoteChar (c : Char) : Bool :=
  c == '"' || c.toNat == 39

/-- `replace(/^["']|["']$/g, '')`: remove at most one leading and at most
one trailing quote character. -/
def stripEdgeQuotes (l : List Char) : List Char :=
  let l1 :=
    match l with
    | [] => []
    | c :: rest => if isQuoteChar c then rest else c :: rest
  match l1.reverse with
  | [] => l1
  | c :: rest => if isQuoteChar c then rest.reverse else l1

/-- `AIService.parseResponse` (src/services/ai.ts, lines 170-208). -/
def parseResponse (content : List Char) (type : String) : AIResponse :=
  let cleaned := jsTrim content
  if type = "commit" then
    { content := (splitLines cleaned).headD [], confidence := 0.8 }
  else if type = "pr" then
    { content := cleaned, confidence := 0.85 }
  else if type = "review" then
    let suggestions :=
      ((splitLines cleaned).filter (fun line => bulletStart (jsTrim line))).map stripBulletLine
    { content := cleaned, confidence := 0.75
    , suggestions := if suggestions.length > 0 then some suggestions else none }
  else if type = "issue" then
    { content := stripEdgeQuotes ((splitLines cleaned).headD []), confidence := 0.8 }
  else
    { content := cleaned, confidence := 0.7 }

/-- A network request to one of the two generation backends. -/
inductive GenCall where
  | openai (type : String)
  | anthropic (type : String)
  deriving DecidableEq

/-- `AIService.getApiKey`: throws a configuration error when `aiApiKey` is
absent (or empty, by JS truthiness), before any request is built. -/
def AIService.getApiKey (c : GitFlowConfig) : Except String String :=
  if jsTruthyStr c.aiApiKey then Except.ok (c.aiApiKey.getD "")
  else Except.error "AI API key not configured. Run \"gitflow config set aiApiKey <key>\""

/-- `AIService.getProvider`: `configManager.getConfig().aiProvider || 'openai'`. -/
def AIService.getProvider (c : GitFlowConfig) : String :=
  if jsTruthyStr c.aiProvider then c.aiProvider.getD "" else "openai"

/-- `AIService.generateWithOpenAI`: resolve the key (configuration error if
missing, no request), then one request to the OpenAI endpoint; an HTTP
failure is wrapped, a payload is post-processed by `parseResponse`. -/
def AIService.generateWithOpenAI (c : GitFlowConfig)
    (backend : Except String (List Char)) (type : String) :
    List GenCall × Except String AIResponse :=
  match AIService.getApiKey c with
  | Except.error e => ([], Except.error e)
  | Except.ok _ =>
    match backend with
    | Except.error e => ([GenCall.openai type], Except.error ("OpenAI API error: " ++ e))
    | Except.ok content => ([GenCall.openai type], Except.ok (parseResponse content type))

/-- `AIService.generateWithAnthropic`: same shape against the Anthropic
endpoint. -/
def AIService.generateWithAnthropic (c : GitFlowConfig)
    (backend : Except String (List Char)) (type : String) :
    List GenCall × Except String AIResponse :=
  match AIService.getApiKey c with
  | Except.error e => ([], Except.error e)
  | Except.ok _ =>
    match backend with
    | Except.error e => ([GenCall.anthropic type], Except.error ("Anthropic API error: " ++ e))
    | Except.ok content => ([GenCall.anthropic type], Except.ok (parseResponse content type))

/-- `AIService.generateCommitMessage` (src/services/ai.ts, lines 18-29):
dispatch on the provider selector; anything other than the two backends is
rejected with a configuration error and no request. -/
def AIService.generateCommitMessage (c : GitFlowConfig)
    (backend : Except String (List Char)) : List GenCall × Except String AIResponse :=
  let provider := AIService.getProvider c
  if provider = "openai" then AIService.generateWithOpenAI c backend "commit"
  else if provider = "anthropic" then AIService.generateWithAnthropic c backend "commit"
  else ([], Except.error ("AI provider " ++ provider ++ " not supported"))

/-- `AIService.generatePRDescription` (lines 31-42); the title only enters
the prompt, which is irrelevant to the observable result. -/
def AIService.generatePRDescription (c : GitFlowConfig) (_title : List Char)
    (backend : Except String (List Char)) : List GenCall × Except String AIResponse :=
  let provider := AIService.getProvider c
  if provider = "openai" then AIService.generateWithOpenAI c backend "pr"
  else if provider = "anthropic" then AIService.generateWithAnthropic c backend "pr"
  else ([], Except.error ("AI provider " ++ provider ++ " not supported"))

/-- `AIService.reviewCode` (lines 44-55). -/
def AIService.reviewCode (c : GitFlowConfig)
    (backend : Except String (List Char)) : List GenCall × Except String AIResponse :=
  let provider := AIService.getProvider c
  if provider = "openai" then AIService.generateWithOpenAI c backend "review"
  else if provider = "anthropic" then AIService.generateWithAnthropic c backend "review"
  else ([], Except.error ("AI provider " ++ provider ++ " not supported"))

/-- `AIService.generateIssueTitle` (lines 57-68). -/
def AIService.generateIssueTitle (c : GitFlowConfig)
    (backend : Except String (List Char)) : List GenCall × Except String AIResponse :=
  let provider := AIService.getProvider c
  if provider = "openai" then AIService.generateWithOpenAI c backend "issue"
  else if provider = "anthropic" then AIService.generateWithAnthropic c backend "issue"
  else ([], Except.error ("AI provider " ++ provider ++ " not supported"))

/-! ## Empty-diff gates in front of the generation adapter
(src/commands/commit.ts, src/commands/ai.ts, src/commands/pr.ts) -/

/-- How an AI-assisted command site relates to the generation adapter. -/
inductive AIGateOutcome where
  | noChanges
  | noStaged
  | invoked
  | skipped
  deriving DecidableEq

/-- `commit --ai` (src/commands/commit.ts, lines 32-44): the AI branch runs
only when no `-m` message is given and `--ai` is set; it fetches the diff
and returns with a "No changes to commit" warning when the trimmed diff is
empty, otherwise it invokes `aiService.generateCommitMessage`. -/
def commitCmdAIPhase (message : Option String) (ai : Bool) (diff : List Char) :
    AIGateOutcome :=
  if jsTruthyStr message || !ai then AIGateOutcome.skipped
  else if jsTrim diff = [] then AIGateOutcome.noChanges
  else AIGateOutcome.invoked

/-- `ai commit` (src/commands/ai.ts, `generateCommitMessage`, lines 43-55):
"No changes to analyze" on an empty trimmed diff, else the adapter call. -/
def aiCommitPhase (diff : List Char) : AIGateOutcome :=
  if jsTrim diff = [] then AIGateOutcome.noChanges
  else AIGateOutcome.invoked

/-- `ai review` (src/commands/ai.ts, `reviewCode`): pick the diff source
(`--file`, `--diff`, else the staged paths — aborting with "No staged
changes to review" when none are staged), then "No code changes to review"
on an empty trimmed diff, else the adapter call. -/
def aiReviewPhase (file : Option String) (diffFlag : Bool) (staged : List String)
    (dFile dAll dStaged : List Char) : AIGateOutcome :=
  if jsTruthyStr file then
    (if jsTrim dFile = [] then AIGateOutcome.noChanges else AIGateOutcome.invoked)
  else if diffFlag then
    (if jsTrim dAll = [] then AIGateOutcome.noChanges else AIGateOutcome.invoked)
  else if staged = [] then AIGateOutcome.noStaged
  else if jsTrim dStaged = [] then AIGateOutcome.noChanges
  else AIGateOutcome.invoked

/-- `pr create --ai` (src/commands/pr.ts, `createPR`, lines 492-523): when
no body was passed and `--ai` is set, the command fetches the diff and
invokes `aiService.generatePRDescription` unconditionally — there is no
empty-diff check on this path. -/
def createPR_aiPhase (body : Option String) (ai : Bool) (_diff : List Char) :
    AIGateOutcome :=
  if jsTruthyStr body || !ai then AIGateOutcome.skipped
  else AIGateOutcome.invoked

/-! ## Spec-side descriptions and concrete fixtures -/

/-- Spec-side reading of the review post-processing: walk the lines in
order, keep each line whose trimmed form begins with `-` or `*`, stripped
of a line-initial marker (with its trailing whitespace) and trimmed. -/
def reviewSuggestionsSpec : List (List Char) → List (List Char)
  | [] => []
  | line :: rest =>
    if bulletStart (jsTrim line) then stripBulletLine line :: reviewSuggestionsSpec rest
    else reviewSuggestionsSpec rest

/-- An engine status where the same path is both newly added and staged
(the normal shape `simple-git` reports for a staged new file). -/
def engineDup : EngineStatus :=
  { current := some "main", tracking := none, modified := []
  , created := ["a.txt"], staged := ["a.txt"], conflicted := []
  , ahead := none, behind := none }

/-- An engine status for a file that is staged as new and also modified in
the working tree (`AM` in porcelain terms). -/
def engineOverlap : EngineStatus :=
  { current := some "main", tracking := none, modified := ["a.txt"]
  , created := ["a.txt"], staged := [], conflicted := []
  , ahead := none, behind := none }

/-- A configuration with an empty-string hosting credential. -/
def cfgEmptyToken : GitFlowConfig :=
  { githubToken := some "" }

/-- A configuration with no provider selector but a generation credential. -/
def cfgUnsetProvider : GitFlowConfig :=
  { aiProvider := none, aiApiKey := some "sk-test" }

/-- A fully configured first-party generation setup. -/
def cfgOpenAI : GitFlowConfig :=
  { aiProvider := some "openai", aiApiKey := some "sk-test" }

/-! ## Helper lemmas -/

theorem dropTrailingWS_cons_head (c : Char) (rest : List Char)
    (h : dropTrailingWS (c :: rest) ≠ []) :
    ∃ r, dropTrailingWS (c :: rest) = c :: r := by
  cases hd : dropTrailingWS rest with
  | nil =>
    by_cases hws : isJSWhitespace c
    · exact absurd (by simp [dropTrailingWS, hd, hws]) h
    · exact ⟨[], by simp [dropTrailingWS, hd, hws]⟩
  | cons a r =>
    exact ⟨a :: r, by simp [dropTrailingWS, hd]⟩

theorem head_dropWhile_not_ws (l : List Char) :
    ∀ c rest, l.dropWhile isJSWhitespace = c :: rest → isJSWhitespace c = false := by
  induction l with
  | nil => intro c rest h; simp at h
  | cons a t ih =>
    intro c rest h
    by_cases hws : isJSWhitespace a
    · exact ih c rest (by simpa [List.dropWhile_cons, hws] using h)
    · rw [List.dropWhile_cons] at h
      simp only [hws, if_false] at h
      cases h
      simpa using hws

theorem jsTrim_head_not_ws (l : List Char) (h : jsTrim l ≠ []) :
    ∃ c r, jsTrim l = c :: r ∧ isJSWhitespace c = false := by
  unfold jsTrim at h ⊢
  cases hd : l.dropWhile isJSWhitespace with
  | nil => rw [hd] at h; exact absurd rfl h
  | cons c rest =>
    rw [hd] at h
    obtain ⟨r, hr⟩ := dropTrailingWS_cons_head c rest h
    exact ⟨c, r, hr, head_dropWhile_not_ws l c rest hd⟩

theorem splitLines_ne_nil : ∀ l : List Char, splitLines l ≠ [] := by
  intro l
  cases l with
  | nil => simp [splitLines]
  | cons c rest =>
    by_cases h : c = '\n'
    · simp [splitLines, h]
    · cases hs : splitLines rest <;> simp [splitLines, h, hs]

theorem headD_splitLines_cons (c : Char) (rest : List Char) (h : ¬ c = '\n') :
    (splitLines (c :: rest)).headD [] = c :: (splitLines rest).headD [] := by
  cases hs : splitLines rest with
  | nil => exact absurd hs (splitLines_ne_nil rest)
  | cons a t => simp [splitLines, h, hs]

theorem headD_splitLines_eq_firstLineOf (l : List Char) :
    (splitLines l).headD [] = firstLineOf l := by
  induction l with
  | nil => simp [splitLines, firstLineOf]
  | cons c rest ih =>
    by_cases h : c = '\n'
    · subst h; simp [splitLines, firstLineOf]
    · rw [headD_splitLines_cons c rest h, ih]
      simp [firstLineOf, List.takeWhile_cons, h]

theorem headD_splitLines_jsTrim_ne_nil (t : List Char) (h : jsTrim t ≠ []) :
    (splitLines (jsTrim t)).headD [] ≠ [] := by
  obtain ⟨c, r, heq, hws⟩ := jsTrim_head_not_ws t h
  have hc : ¬ c = '\n' := by
    intro hc; subst hc; simp [isJSWhitespace] at hws
  rw [heq, headD_splitLines_cons c r hc]
  simp

theorem review_filter_map_eq_spec (ls : List (List Char)) :
    (ls.filter (fun line => bulletStart (jsTrim line))).map stripBulletLine
      = reviewSuggestionsSpec ls := by
  induction ls with
  | nil => rfl
  | cons line rest ih =>
    by_cases h : bulletStart (jsTrim line)
    · simp [reviewSuggestionsSpec, List.filter_cons, h, ih]
    · simp [reviewSuggestionsSpec, List.filter_cons, h, ih]

/-! ## Claims -/

/-- Claim C1 (confirmed): for every configuration key `k` and string value
`v`, `set(k, v)` followed by `get(k)` returns the coerced form of `v`: the
literal `"true"` becomes boolean true, `"false"` boolean false, any other
non-empty string whose numeric conversion is not NaN becomes that number,
and every other string is stored unchanged.  `numConv` is the JS `Number`
conversion (`none` = NaN). -/
theorem c1_set_then_get {N : Type} (numConv : String → Option N)
    (view : ConfStore N → GitFlowConfig) (st : ConfStore N) (k v : String) :
    ConfigManager.get (setConfigCmd numConv view st k v).1 k =
      some (if v = "true" then ConfigValue.bool true
        else if v = "false" then ConfigValue.bool false
        else match numConv v with
          | some n => if v = "" then ConfigValue.str v else ConfigValue.num n
          | none => ConfigValue.str v) := by
  simp [setConfigCmd, ConfigManager.set, ConfigManager.get, coerceValue]

/-- Counterexample to claim C2 as stated: `status()` builds `staged` with
`created.concat(staged)`, which does **not** remove duplicates, so for an
engine record whose created and staged lists share a path the result is not
a union with set semantics. -/
theorem c2_counterexample :
    (GitService.status engineDup).staged = ["a.txt", "a.txt"] ∧
    ¬ (GitService.status engineDup).staged.Nodup := by
  exact ⟨rfl, by decide⟩

/-- Claim C2 (amended): `status()` returns `staged` as the plain
concatenation of the engine's newly-created and explicitly-staged path
lists (duplicates preserved when a path occurs in both), defaults `current`
to the literal `"HEAD"` when the engine reports no current branch, and for
an engine record with exactly one created path, no other staged paths, one
modified path and no conflicts it yields exactly one staged path, one
changed path and no conflicts. -/
theorem c2_status_shape :
    (∀ e : EngineStatus, (GitService.status e).staged = e.created ++ e.staged) ∧
    (∀ e : EngineStatus, e.current = none → (GitService.status e).current = "HEAD") ∧
    (∀ p q : String,
      (GitService.status
        { current := some "main", tracking := none, modified := [q]
        , created := [p], staged := [], conflicted := []
        , ahead := none, behind := none }).staged = [p] ∧
      (GitService.status
        { current := some "main", tracking := none, modified := [q]
        , created := [p], staged := [], conflicted := []
        , ahead := none, behind := none }).changed = [q] ∧
      (GitService.status
        { current := some "main", tracking := none, modified := [q]
        , created := [p], staged := [], conflicted := []
        , ahead := none, behind := none }).conflicts = []) := by
  refine ⟨fun e => rfl, fun e h => ?_, fun p q => ⟨by simp [GitService.status], rfl, rfl⟩⟩
  simp [GitService.status, jsOrString, h]

/-- Witness for C2: a detached-head engine record yields `current = "HEAD"`. -/
theorem c2_witness :
    (GitService.status
      { current := none, tracking := none, modified := [], created := []
      , staged := [], conflicted := [], ahead := none, behind := none }).current
      = "HEAD" :=
  c2_status_shape.2.1 _ rfl

/-- Claim C3 (confirmed): the pr/issue commands extract owner/repo from the
remote URL before any hosting-API call; `https://github.com/acme/widgets.git`
yields `("acme", "widgets")`; a URL that does not match the pattern makes
the command exit with an error and issue zero hosting calls; and any
invocation that performs a hosting call went through a successful
extraction. -/
theorem c3_owner_repo_extraction :
    (matchOwnerRepo ("https://github.com/acme/widgets.git".toList)
        = some ("acme".toList, "widgets".toList)) ∧
    (∀ (cont : List Char → List Char → List HostCall × CmdExit) (url : List Char),
        matchOwnerRepo url = none →
        prCommandModel cont true (some url)
          = ([], CmdExit.exitError "Invalid GitHub repository URL")) ∧
    (∀ (cont : List Char → List Char → List HostCall × CmdExit) (url : List Char),
        matchOwnerRepo url = none →
        issueCommandModel cont true (some url)
          = ([], CmdExit.exitError "Invalid GitHub repository URL")) ∧
    (∀ (cont : List Char → List Char → List HostCall × CmdExit) (isRepo : Bool)
        (remoteUrl : Option (List Char)) (calls : List HostCall) (ex : CmdExit),
        prCommandModel cont isRepo remoteUrl = (calls, ex) → calls ≠ [] →
        ∃ url owner repo, remoteUrl = some url ∧
          matchOwnerRepo url = some (owner, repo) ∧ cont owner repo = (calls, ex)) := by
  refine ⟨by decide, fun cont url h => ?_, fun cont url h => ?_,
    fun cont isRepo remoteUrl calls ex hmodel hcalls => ?_⟩
  · simp [prCommandModel, h]
  · simp [issueCommandModel, h]
  · cases isRepo with
    | false =>
      simp [prCommandModel] at hmodel
      exact (hcalls (by simp_all)).elim
    | true =>
      cases remoteUrl with
      | none =>
        simp [prCommandModel] at hmodel
        exact (hcalls (by simp_all)).elim
      | some url =>
        cases hm : matchOwnerRepo url with
        | none =>
          simp [prCommandModel, hm] at hmodel
          exact (hcalls (by simp_all)).elim
        | some pair =>
          obtain ⟨owner, repo⟩ := pair
          refine ⟨url, owner, repo, rfl, hm, ?_⟩
          simpa [prCommandModel, hm] using hmodel

/-- Witness for C3: a non-matching remote URL makes the pr command exit
with the invalid-URL error and perform no hosting call. -/
theorem c3_witness :
    prCommandModel
      (fun owner repo => ([HostCall.getPullRequests owner repo ("open".toList)], CmdExit.ok))
      true (some ("https://example.org/acme/widgets".toList))
      = ([], CmdExit.exitError "Invalid GitHub repository URL") :=
  c3_owner_repo_extraction.2.1 _ _ (by decide)

/-- Counterexample to claim C4 as stated: the `pr` intent does **not** pass
the response through unmodified (it is trimmed), and a bullet line preceded
by whitespace is collected with its marker left in place rather than
stripped. -/
theorem c4_counterexample :
    (parseResponse ("x\n".toList) "pr").content ≠ "x\n".toList ∧
    (parseResponse ("t:\n  - fix".toList) "review").suggestions
      = some ["- fix".toList] := by
  exact ⟨by decide, by decide⟩

/-- Claim C4 (amended): intent-specific post-processing: `commit` keeps the
first line of the trimmed response; `issue` keeps the first line of the
trimmed response with at most one leading and one trailing quote character
removed; `pr` returns the trimmed response; `review` collects, in order,
the lines whose trimmed form begins with `-` or `*`, each stripped of a
line-initial marker and its following whitespace (when the marker is the
very first character of the line) and trimmed — so a response containing
the unindented lines `- fix null check` and `* add test` yields exactly the
suggestions `fix null check` and `add test`. -/
theorem c4_parse_postprocessing :
    (∀ content, (parseResponse content "commit").content = firstLineOf (jsTrim content)) ∧
    (∀ content, (parseResponse content "issue").content
        = stripEdgeQuotes (firstLineOf (jsTrim content))) ∧
    (∀ content, (parseResponse content "pr").content = jsTrim content) ∧
    (∀ content, (parseResponse content "review").suggestions
        = (if reviewSuggestionsSpec (splitLines (jsTrim content)) = [] then none
           else some (reviewSuggestionsSpec (splitLines (jsTrim content))))) ∧
    ((parseResponse ("Review:\n- fix null check\n* add test".toList) "review").suggestions
        = some ["fix null check".toList, "add test".toList]) := by
  refine ⟨fun content => ?_, fun content => ?_, fun content => rfl, fun content => ?_,
    by decide⟩
  · show (splitLines (jsTrim content)).headD [] = firstLineOf (jsTrim content)
    exact headD_splitLines_eq_firstLineOf _
  · show stripEdgeQuotes ((splitLines (jsTrim content)).headD [])
        = stripEdgeQuotes (firstLineOf (jsTrim content))
    rw [headD_splitLines_eq_firstLineOf]
  · show (if (((splitLines (jsTrim content)).filter
            (fun line => bulletStart (jsTrim line))).map stripBulletLine).length > 0
        then some (((splitLines (jsTrim content)).filter
          (fun line => bulletStart (jsTrim line))).map stripBulletLine)
        else none) = _
    rw [review_filter_map_eq_spec]
    cases h : reviewSuggestionsSpec (splitLines (jsTrim content)) with
    | nil => simp
    | cons a t => simp

theorem generateWithOpenAI_ok (c : GitFlowConfig) (t : List Char) (ty : String)
    (r : AIResponse)
    (h : (AIService.generateWithOpenAI c (Except.ok t) ty).2 = Except.ok r) :
    r = parseResponse t ty := by
  unfold AIService.generateWithOpenAI AIService.getApiKey at h
  by_cases hk : jsTruthyStr c.aiApiKey
  · simp [hk] at h
    exact h.symm
  · simp [hk] at h

theorem generateWithAnthropic_ok (c : GitFlowConfig) (t : List Char) (ty : String)
    (r : AIResponse)
    (h : (AIService.generateWithAnthropic c (Except.ok t) ty).2 = Except.ok r) :
    r = parseResponse t ty := by
  unfold AIService.generateWithAnthropic AIService.getApiKey at h
  by_cases hk : jsTruthyStr c.aiApiKey
  · simp [hk] at h
    exact h.symm
  · simp [hk] at h

theorem generateCommitMessage_ok (c : GitFlowConfig) (t : List Char) (r : AIResponse)
    (h : (AIService.generateCommitMessage c (Except.ok t)).2 = Except.ok r) :
    r = parseResponse t "commit" := by
  unfold AIService.generateCommitMessage at h
  by_cases h1 : AIService.getProvider c = "openai"
  · rw [if_pos h1] at h
    exact generateWithOpenAI_ok c t "commit" r h
  · rw [if_neg h1] at h
    by_cases h2 : AIService.getProvider c = "anthropic"
    · rw [if_pos h2] at h
      exact generateWithAnthropic_ok c t "commit" r h
    · rw [if_neg h2] at h
      simp at h

theorem generatePRDescription_ok (c : GitFlowConfig) (title t : List Char) (r : AIResponse)
    (h : (AIService.generatePRDescription c title (Except.ok t)).2 = Except.ok r) :
    r = parseResponse t "pr" := by
  unfold AIService.generatePRDescription at h
  by_cases h1 : AIService.getProvider c = "openai"
  · rw [if_pos h1] at h
    exact generateWithOpenAI_ok c t "pr" r h
  · rw [if_neg h1] at h
    by_cases h2 : AIService.getProvider c = "anthropic"
    · rw [if_pos h2] at h
      exact generateWithAnthropic_ok c t "pr" r h
    · rw [if_neg h2] at h
      simp at h

theorem reviewCode_ok (c : GitFlowConfig) (t : List Char) (r : AIResponse)
    (h : (AIService.reviewCode c (Except.ok t)).2 = Except.ok r) :
    r = parseResponse t "review" := by
  unfold AIService.reviewCode at h
  by_cases h1 : AIService.getProvider c = "openai"
  · rw [if_pos h1] at h
    exact generateWithOpenAI_ok c t "review" r h
  · rw [if_neg h1] at h
    by_cases h2 : AIService.getProvider c = "anthropic"
    · rw [if_pos h2] at h
      exact generateWithAnthropic_ok c t "review" r h
    · rw [if_neg h2] at h
      simp at h

/-- Counterexample to claim C5 as stated: with no provider selector
configured (and a credential present) the adapter does **not** fail fast —
it defaults to the first-party backend and issues a network request that
succeeds. -/
theorem c5_counterexample :
    AIService.generateCommitMessage cfgUnsetProvider (Except.ok ("feat: add x".toList))
      = ([GenCall.openai "commit"],
         Except.ok { content := "feat: add x".toList, confidence := 0.8
                   , suggestions := none }) := by
  rfl

/-- Claim C5 (amended): a configured selector outside the two backend
values (`"openai"`, `"anthropic"`) — e.g. `"local"` or any unrecognized
value — makes every generation intent fail fast with a configuration error
and no network request; an *unconfigured* (or empty) selector instead
defaults to the first-party backend; a missing generation credential fails
before any request on either backend. -/
theorem c5_provider_dispatch :
    (∀ (c : GitFlowConfig) (backend : Except String (List Char)) (p : String),
        c.aiProvider = some p → p ≠ "" → p ≠ "openai" → p ≠ "anthropic" →
        AIService.generateCommitMessage c backend
            = ([], Except.error ("AI provider " ++ p ++ " not supported")) ∧
        AIService.reviewCode c backend
            = ([], Except.error ("AI provider " ++ p ++ " not supported")) ∧
        AIService.generateIssueTitle c backend
            = ([], Except.error ("AI provider " ++ p ++ " not supported")) ∧
        (∀ title, AIService.generatePRDescription c title backend
            = ([], Except.error ("AI provider " ++ p ++ " not supported")))) ∧
    (∀ (c : GitFlowConfig) (backend : Except String (List Char)),
        c.aiProvider = none →
        AIService.generateCommitMessage c backend
          = AIService.generateWithOpenAI c backend "commit") ∧
    (∀ (c : GitFlowConfig) (backend : Except String (List Char)) (ty : String),
        c.aiApiKey = none →
        AIService.generateWithOpenAI c backend ty
          = ([], Except.error
              "AI API key not configured. Run \"gitflow config set aiApiKey <key>\"") ∧
        AIService.generateWithAnthropic c backend ty
          = ([], Except.error
              "AI API key not configured. Run \"gitflow config set aiApiKey <key>\"")) := by
  refine ⟨fun c backend p hc hne h1 h2 => ?_, fun c backend hc => ?_,
    fun c backend ty hc => ?_⟩
  · have hprov : AIService.getProvider c = p := by
      simp [AIService.getProvider, hc, jsTruthyStr, hne]
    refine ⟨?_, ?_, ?_, fun title => ?_⟩ <;>
      simp [AIService.generateCommitMessage, AIService.reviewCode,
        AIService.generateIssueTitle, AIService.generatePRDescription, hprov, h1, h2]
  · simp [AIService.generateCommitMessage, AIService.getProvider, hc, jsTruthyStr]
  · constructor <;>
      simp [AIService.generateWithOpenAI, AIService.generateWithAnthropic,
        AIService.getApiKey, hc, jsTruthyStr]

/-- Witness for C5: the selector `"local"` makes the commit intent fail
fast with the configuration error. -/
theorem c5_witness :
    AIService.generateCommitMessage
        { aiProvider := some "local", aiApiKey := some "sk-test" } (Except.ok [])
      = ([], Except.error ("AI provider " ++ "local" ++ " not supported")) :=
  (c5_provider_dispatch.1 _ _ "local" rfl (by decide) (by decide) (by decide)).1

/-- Counterexample to claim C6 as stated: on the `pr create --ai` path an
empty diff does not abort with a "no changes" outcome — the generation
adapter is invoked unconditionally once the body is missing and `--ai` is
set. -/
theorem c6_counterexample :
    createPR_aiPhase none true [] = AIGateOutcome.invoked ∧ jsTrim [] = [] := by
  exact ⟨rfl, rfl⟩

/-- Claim C6 (amended): `commit --ai`, `ai commit` and `ai review` abort
with a "no changes" outcome and perform no generation call when the
trimmed diff is empty (`ai review` additionally aborts with a "no staged
changes" outcome when nothing is staged and no explicit source is given);
`pr create --ai` invokes the generation adapter regardless of the diff
being empty. -/
theorem c6_empty_diff_gates :
    (∀ (m : Option String) (ai : Bool) (d : List Char), jsTrim d = [] →
        commitCmdAIPhase m ai d ≠ AIGateOutcome.invoked) ∧
    (∀ (m : Option String) (d : List Char), jsTruthyStr m = false → jsTrim d = [] →
        commitCmdAIPhase m true d = AIGateOutcome.noChanges) ∧
    (∀ d : List Char, jsTrim d = [] → aiCommitPhase d = AIGateOutcome.noChanges) ∧
    (∀ (f : Option String) (df : Bool) (st : List String) (d1 d2 d3 : List Char),
        jsTrim d1 = [] → jsTrim d2 = [] → jsTrim d3 = [] →
        aiReviewPhase f df st d1 d2 d3 ≠ AIGateOutcome.invoked) ∧
    (∀ d : List Char, createPR_aiPhase none true d = AIGateOutcome.invoked) := by
  refine ⟨fun m ai d h => ?_, fun m d hm h => ?_, fun d h => ?_,
    fun f df st d1 d2 d3 h1 h2 h3 => ?_, fun d => rfl⟩
  · unfold commitCmdAIPhase
    split
    · simp
    · simp [h]
  · simp [commitCmdAIPhase, hm, h]
  · simp [aiCommitPhase, h]
  · unfold aiReviewPhase
    split
    · simp [h1]
    · split
      · simp [h2]
      · split
        · simp
        · simp [h3]

/-- Witness for C6: `ai commit` on an empty diff reports "no changes". -/
theorem c6_witness : aiCommitPhase [] = AIGateOutcome.noChanges :=
  c6_empty_diff_gates.2.2.1 [] rfl

/-- Counterexample to claim C7 as stated: an empty backend payload (and,
for the `issue` intent, a payload consisting only of quote characters)
yields a successful `GenerationResult` whose primary text is empty. -/
theorem c7_counterexample :
    (AIService.generateCommitMessage cfgOpenAI (Except.ok [])).2
        = Except.ok { content := [], confidence := 0.8, suggestions := none } ∧
    (AIService.generateIssueTitle cfgOpenAI (Except.ok ("\"\"".toList))).2
        = Except.ok { content := [], confidence := 0.8, suggestions := none } ∧
    ("\"\"".toList ≠ ([] : List Char)) := by
  refine ⟨rfl, rfl, by decide⟩

/-- Claim C7 (amended): a successful generation returns exactly the
intent's post-processing of the backend payload, and for the `commit`,
`pr` and `review` intents the primary text is non-empty whenever the
trimmed backend payload is non-empty (an empty or all-whitespace payload
yields an empty primary text, and the `issue` intent can yield an empty
text from a quotes-only first line). -/
theorem c7_primary_text :
    (∀ (c : GitFlowConfig) (t : List Char) (r : AIResponse),
        (AIService.generateCommitMessage c (Except.ok t)).2 = Except.ok r →
        r = parseResponse t "commit") ∧
    (∀ (c : GitFlowConfig) (t : List Char) (r : AIResponse),
        (AIService.generateCommitMessage c (Except.ok t)).2 = Except.ok r →
        jsTrim t ≠ [] → r.content ≠ []) ∧
    (∀ (c : GitFlowConfig) (title t : List Char) (r : AIResponse),
        (AIService.generatePRDescription c title (Except.ok t)).2 = Except.ok r →
        jsTrim t ≠ [] → r.content ≠ []) ∧
    (∀ (c : GitFlowConfig) (t : List Char) (r : AIResponse),
        (AIService.reviewCode c (Except.ok t)).2 = Except.ok r →
        jsTrim t ≠ [] → r.content ≠ []) := by
  refine ⟨fun c t r h => generateCommitMessage_ok c t r h,
    fun c t r h ht => ?_, fun c title t r h ht => ?_, fun c t r h ht => ?_⟩
  · rw [generateCommitMessage_ok c t r h]
    show (splitLines (jsTrim t)).headD [] ≠ []
    exact headD_splitLines_jsTrim_ne_nil t ht
  · rw [generatePRDescription_ok c title t r h]
    show jsTrim t ≠ []
    exact ht
  · rw [reviewCode_ok c t r h]
    show jsTrim t ≠ []
    exact ht

/-- Witness for C7: a non-empty payload for the commit intent produces a
non-empty primary text. -/
theorem c7_witness : (parseResponse ("fix: y".toList) "commit").content ≠ [] :=
  c7_primary_text.2.1 cfgOpenAI ("fix: y".toList) (parseResponse ("fix: y".toList) "commit")
    rfl (by decide)

/-- Counterexample to claim C8 as stated: a hosting credential that is
*set* to the empty string starts with neither recognized prefix, yet
`validate()` reports no warning, because the check uses JS truthiness
(`config.githubToken && ...`) and the empty string is falsy. -/
theorem c8_counterexample :
    validateConfig cfgEmptyToken = [] ∧
    cfgEmptyToken.githubToken.isSome = true ∧
    ¬ (("" : String).startsWith "ghp_" ∨ ("" : String).startsWith "github_pat_") := by
  refine ⟨rfl, rfl, by decide⟩

/-- Claim C8 (amended): `validate()` reports a warning exactly when the
hosting credential is set to a *non-empty* value starting with neither
recognized prefix, or the generation-provider selector is set to a
*non-empty* value outside the three recognized selectors; it never flags
an unset credential; and validation never prevents `set` from persisting —
the written store is determined before validation runs. -/
theorem c8_validate :
    (∀ c : GitFlowConfig,
      validateConfig c ≠ [] ↔
        ((jsTruthyStr c.githubToken ∧
            ¬ ((c.githubToken.getD "").startsWith "ghp_" ∨
               (c.githubToken.getD "").startsWith "github_pat_")) ∨
         (jsTruthyStr c.aiProvider ∧
            (c.aiProvider.getD "") ∉ (["openai", "anthropic", "local"] : List String)))) ∧
    (∀ c : GitFlowConfig, c.githubToken = none →
        "GitHub token appears to be invalid" ∉ validateConfig c) ∧
    (∀ (N : Type) (numConv : String → Option N) (view : ConfStore N → GitFlowConfig)
        (st : ConfStore N) (k v : String),
        (setConfigCmd numConv view st k v).1 = ConfigManager.set st k (coerceValue numConv v)) := by
  refine ⟨fun c => ?_, fun c h => ?_, fun N numConv view st k v => rfl⟩
  · unfold validateConfig
    by_cases hA : jsTruthyStr c.githubToken ∧
        ¬ ((c.githubToken.getD "").startsWith "ghp_" ∨
           (c.githubToken.getD "").startsWith "github_pat_")
    · rw [if_pos hA]
      simp [hA]
    · rw [if_neg hA]
      by_cases hB : jsTruthyStr c.aiProvider ∧
          (c.aiProvider.getD "") ∉ (["openai", "anthropic", "local"] : List String)
      · rw [if_pos hB]
        simp [hB]
      · rw [if_neg hB]
        simp only [List.nil_append]
        constructor
        · intro hne
          exact absurd rfl hne
        · intro hor
          cases hor with
          | inl hx => exact absurd hx hA
          | inr hx => exact absurd hx hB
  · unfold validateConfig
    rw [h]
    rw [if_neg (by simp [jsTruthyStr])]
    simp only [List.nil_append]
    by_cases hB : jsTruthyStr c.aiProvider ∧
        (c.aiProvider.getD "") ∉ (["openai", "anthropic", "local"] : List String)
    · rw [if_pos hB]
      decide
    · rw [if_neg hB]
      simp

/-- Witness for C8: with no hosting credential set, the token warning is
absent even when a bogus provider warning is present. -/
theorem c8_witness :
    "GitHub token appears to be invalid" ∉ validateConfig { aiProvider := some "weird" } :=
  c8_validate.2.1 { aiProvider := some "weird" } rfl

/-- Counterexample to claim C9 as stated: a path that the engine reports
both as newly created (staged new file) and as modified in the working
tree appears in both the `staged` and the `changed` list of the returned
status — the three lists are not pairwise exclusive. -/
theorem c9_counterexample :
    "a.txt" ∈ (GitService.status engineOverlap).staged ∧
    "a.txt" ∈ (GitService.status engineOverlap).changed := by
  refine ⟨by decide, by decide⟩

/-- Claim C9 (amended): the `ahead`/`behind` counts of every `status()`
result are non-negative (the engine's counts are natural numbers and a
missing count maps to 0), and the three path lists are pairwise disjoint
*provided* the engine-supplied lists are — `status()` itself passes them
through without enforcing exclusivity. -/
theorem c9_status_invariants :
    ∀ e : EngineStatus,
      0 ≤ (GitService.status e).ahead ∧
      0 ≤ (GitService.status e).behind ∧
      ((e.created ++ e.staged).Disjoint e.modified →
       (e.created ++ e.staged).Disjoint e.conflicted →
       e.modified.Disjoint e.conflicted →
        ((GitService.status e).staged.Disjoint (GitService.status e).changed ∧
         (GitService.status e).staged.Disjoint (GitService.status e).conflicts ∧
         (GitService.status e).changed.Disjoint (GitService.status e).conflicts)) := by
  intro e
  exact ⟨Int.natCast_nonneg _, Int.natCast_nonneg _, fun h1 h2 h3 => ⟨h1, h2, h3⟩⟩

/-- Witness for C9: on a record with disjoint engine lists the result's
lists are pairwise disjoint. -/
theorem c9_witness :
    (GitService.status engineDup).staged.Disjoint (GitService.status engineDup).changed ∧
    (GitService.status engineDup).staged.Disjoint (GitService.status engineDup).conflicts ∧
    (GitService.status engineDup).changed.Disjoint (GitService.status engineDup).conflicts :=
  (c9_status_invariants engineDup).2.2 (by simp [List.Disjoint, engineDup])
    (by simp [List.Disjoint, engineDup]) (by simp [List.Disjoint, engineDup])

/-- Claim C10 (confirmed): `getRemoteUrl` never raises — it is total on the
engine outcome: a failed remote listing yields `undefined`, a listing
without a matching remote yields `undefined`, and a configured remote
yields its fetch URL (the first listed remote with that name). -/
theorem c10_getRemoteUrl :
    (∀ (e : String) (remote : String),
        GitService.getRemoteUrl (Except.error e) remote = none) ∧
    (∀ (rs : List RemoteInfo) (remote : String),
        (GitService.getRemoteUrl (Except.ok rs) remote).isSome ↔
          ∃ r ∈ rs, r.name = remote) ∧
    (∀ (rs : List RemoteInfo) (remote : String) (r : RemoteInfo),
        r ∈ rs → r.name = remote →
        ∃ q ∈ rs, q.name = remote ∧
          GitService.getRemoteUrl (Except.ok rs) remote = some q.refs.fetch) := by
  refine ⟨fun e remote => rfl, fun rs remote => ?_, fun rs remote r hmem hname => ?_⟩
  · simp [GitService.getRemoteUrl, List.find?_isSome]
  · have hsome : (rs.find? (fun x => x.name == remote)).isSome := by
      rw [List.find?_isSome]
      exact ⟨r, hmem, by simp [hname]⟩
    obtain ⟨q, hq⟩ := Option.isSome_iff_exists.1 hsome
    refine ⟨q, List.mem_of_find?_eq_some hq, ?_, ?_⟩
    · have := List.find?_some hq
      simpa using this
    · simp [GitService.getRemoteUrl, hq]

/-- Witness for C10: a configured `origin` remote resolves to its fetch
URL. -/
theorem c10_witness :
    ∃ q ∈ [RemoteInfo.mk "origin" (RemoteRefs.mk "https://github.com/acme/widgets.git" "u")],
      q.name = "origin" ∧
      GitService.getRemoteUrl
          (Except.ok [RemoteInfo.mk "origin"
            (RemoteRefs.mk "https://github.com/acme/widgets.git" "u")]) "origin"
        = some q.refs.fetch :=
  c10_getRemoteUrl.2.2 _ "origin" _ (List.mem_singleton.2 rfl) rfl

end Gitflow
